import Mathlib

/-!
# Verification of the Koda agent execution engine

A shallow embedding, in Lean 4, of the components of the Koda AI coding
agent runtime that the specification's claims concern:

* `src/memory/working.py` — `WorkingMemory`, the bounded LRU scratchpad;
* `src/cost/tracker.py` — `CostTracker` and `BudgetExceededError`;
* `src/agent/router.py` — `ComplexityRouter.route`;
* `src/tools/base.py`, `src/tools/registry.py` — the tool contract and registry;
* `src/trace/models.py`, `src/trace/collector.py` — spans and the collector;
* `src/cache/task_cache.py` — `TaskCache.lookup`;
* `src/agent/loop.py` — `AgentLoop.run` and `AgentResult`.

Modelling conventions, used throughout:

* Python `float` arithmetic is modelled exactly over `ℚ`; every claim
  settled here is robust to the rounding gap (no comparison is decided
  within a float ulp of its threshold).
* Python dictionaries keyed by strings are modelled as association lists
  (`List (String × _)`) with first-match lookup; in the source these maps
  never hold duplicate keys.
* Raising an exception is modelled with `Except`: a function that may raise
  returns `Except E A`, and state that Python mutates before raising is
  returned alongside (Python object state persists across a raise).
* Wall-clock reads (`time.time()`) are passed in as explicit arguments.
* Logging calls (`logger.…`) have no observable effect and are dropped.
-/

namespace Koda

/-! ## String helpers

The source uses Python's `str.lower`, substring containment (`"x" in s`),
`str.split()` and `str.startswith`.  They are modelled at the character-list
level so their algebra is available to the proofs. -/

/-- Python `s.lower()` (ASCII case folding, which is all the source feeds it). -/
def strToLower (s : String) : String := ⟨s.data.map Char.toLower⟩

/-- Boolean contiguous-sublist test (Lean 4.14's core lacks `isInfixOf`). -/
def isInfixB {α : Type} [BEq α] : List α → List α → Bool
  | needle, [] => needle.isEmpty
  | needle, hay@(_ :: t) => needle.isPrefixOf hay || isInfixB needle t

/-- Python `needle in haystack` — substring containment. -/
def strContains (haystack needle : String) : Bool :=
  isInfixB needle.data haystack.data

/-- Python `s.startswith(p)`. -/
def strStarts (s p : String) : Bool := p.data.isPrefixOf s.data

/-- Helper for `splitWords`: scan the characters, accumulating the current
word (reversed); whitespace finishes a word, empty pieces are dropped. -/
def splitWordsAux : List Char → List Char → List String
  | [], acc => if acc.isEmpty then [] else [⟨acc.reverse⟩]
  | c :: rest, acc =>
    if c.isWhitespace then
      if acc.isEmpty then splitWordsAux rest []
      else ⟨acc.reverse⟩ :: splitWordsAux rest []
    else splitWordsAux rest (c :: acc)

/-- Python `s.split()`: split on whitespace runs, dropping empty pieces. -/
def splitWords (s : String) : List String := splitWordsAux s.data []

/-- One decimal digit character (used to render naturals the way `str` does). -/
def digitChar10 (n : Nat) : Char :=
  match n % 10 with
  | 0 => '0' | 1 => '1' | 2 => '2' | 3 => '3' | 4 => '4'
  | 5 => '5' | 6 => '6' | 7 => '7' | 8 => '8' | _ => '9'

/-- Decimal digits of `n`, most significant first (fuel-indexed helper). -/
def natDigitsAux : Nat → Nat → List Char
  | 0, _ => []
  | fuel + 1, n =>
    if n < 10 then [digitChar10 n]
    else natDigitsAux fuel (n / 10) ++ [digitChar10 n]

/-- Python `str(n)` for a natural number. -/
def natRepr (n : Nat) : String := ⟨natDigitsAux (n + 1) n⟩

/-- `n` rendered zero-padded to (at least) four digits, for the fractional
part of a `:.4f` format. -/
def pad4 (n : Nat) : String :=
  ⟨List.replicate (4 - (natRepr n).length) '0' ++ (natRepr n).data⟩

/-- Python `f"{q:.4f}"` for the nonnegative case: round to four decimal
places and render with exactly four fractional digits.  (CPython rounds the
binary double to even on ties; the source only formats budget figures with
it and no claim depends on tie behaviour.) -/
def fmt4abs (q : ℚ) : String :=
  let scaled : Nat := (round (q * 10000) : ℤ).toNat
  natRepr (scaled / 10000) ++ "." ++ pad4 (scaled % 10000)

/-- Python `f"{q:.4f}"`, signs included. -/
def fmt4 (q : ℚ) : String :=
  if q < 0 then "-" ++ fmt4abs (-q) else fmt4abs q

/-- Python `round(q, d)` (to-nearest; CPython breaks ties to even, the source
never rounds a tie). -/
def roundTo (q : ℚ) (d : Nat) : ℚ := (round (q * 10 ^ d) : ℤ) / 10 ^ d

/-- Decidable equality on `Except` (absent from this toolchain's library). -/
instance {ε α : Type} [DecidableEq ε] [DecidableEq α] : DecidableEq (Except ε α)
  | .error e₁, .error e₂ =>
    if h : e₁ = e₂ then .isTrue (by rw [h])
    else .isFalse (fun hc => h (by injection hc))
  | .error _, .ok _ => .isFalse (fun hc => Except.noConfusion hc)
  | .ok _, .error _ => .isFalse (fun hc => Except.noConfusion hc)
  | .ok a₁, .ok a₂ =>
    if h : a₁ = a₂ then .isTrue (by rw [h])
    else .isFalse (fun hc => h (by injection hc))

end Koda

namespace Koda

/-! ## `src/memory/working.py` — WorkingMemory

The Python class keeps a dict `_store` and a list `_access_order` over the
same keys (no duplicates, `_access_order` listing every stored key from
least- to most-recently used).  The embedding merges the two into a single
association list `entries` ordered least-recently-used first:
`entries.map Prod.fst` is `_access_order` and `entries.lookup` is
`_store.get`.  `remove(key)` on the order list (first occurrence; keys are
unique) is rendered as a filter. -/

structure WorkingMemory (α : Type) where
  max_items : Nat
  entries : List (String × α)
  deriving Repr

/-- `WorkingMemory.set`: drop any existing entry for `key`, append `(key,
value)` as most recently used, then evict from the least-recently-used end
while over capacity (`while len(_store) > max_items: pop oldest`). -/
def WorkingMemory.set {α : Type} (m : WorkingMemory α) (key : String) (value : α) :
    WorkingMemory α :=
  let inserted := m.entries.filter (fun p => p.1 ≠ key) ++ [(key, value)]
  { m with entries := inserted.drop (inserted.length - m.max_items) }

/-- `WorkingMemory.get`: on a hit, move the key to the most-recently-used
end and return its value; on a miss return `default`.  Returns the value
together with the post-touch memory. -/
def WorkingMemory.get {α : Type} (m : WorkingMemory α) (key : String) (default : α) :
    α × WorkingMemory α :=
  match m.entries.lookup key with
  | some v =>
      (v, { m with entries := m.entries.filter (fun p => p.1 ≠ key) ++ [(key, v)] })
  | none => (default, m)

/-- `WorkingMemory.to_context_string`; `toStr` stands for Python `str` on
the stored values (the agent loop stores `str | None`). -/
def WorkingMemory.to_context_string {α : Type} (m : WorkingMemory α)
    (toStr : α → String) : String :=
  if m.entries.isEmpty then "Working memory: (empty)"
  else
    "\n".intercalate ("Working memory:" ::
      m.entries.map (fun p =>
        let valStr := toStr p.2
        let valStr := if valStr.length > 200 then valStr.take 200 ++ "..." else valStr
        "  " ++ p.1 ++ ": " ++ valStr))

/-- A sequence of `set` calls, applied left to right. -/
def WorkingMemory.setAll {α : Type} (m : WorkingMemory α)
    (ops : List (String × α)) : WorkingMemory α :=
  ops.foldl (fun acc p => acc.set p.1 p.2) m

/-- The distinct keys of `l` listed in order of their **last** occurrence
("the last `n` distinct keys" of an access sequence are the last `n`
entries of this list). -/
def dedupLast : List String → List String
  | [] => []
  | k :: rest => if k ∈ rest then dedupLast rest else k :: dedupLast rest

/-- The last `n` elements of a list. -/
def takeLast {α : Type} (l : List α) (n : Nat) : List α := l.drop (l.length - n)

end Koda

-- a quick sanity example while developing (kept as a plain example)
example :
    ((Koda.WorkingMemory.mk 2 ([] : List (String × Nat))).setAll
      [("a", 1), ("b", 2), ("c", 3), ("a", 4)]).entries = [("c", 3), ("a", 4)] := by
  decide

namespace Koda

/-! ## `src/cost/tracker.py` — CostTracker

`record_call` computes the call's cost from the pricing table, **appends the
record and updates the savings counter, and only then** compares the new
total against the budget, raising `BudgetExceededError(spent=total,
budget=budget)` if it is exceeded.  Since the Python object keeps its
mutated state when the exception propagates, the embedding returns the
updated tracker in both outcomes.  The 80%-of-budget warning is a log line
with no observable effect and is dropped. -/

structure ModelPricing where
  input_per_1k : ℚ
  output_per_1k : ℚ
  deriving Repr, DecidableEq

structure CostConfig where
  budget_per_task_usd : ℚ
  pricing : List (String × ModelPricing)
  deriving Repr, DecidableEq

structure APICallRecord where
  model : String
  input_tokens : Nat
  output_tokens : Nat
  input_cost : ℚ
  output_cost : ℚ
  cached_tokens : Nat
  deriving Repr, DecidableEq

def APICallRecord.total_cost (r : APICallRecord) : ℚ := r.input_cost + r.output_cost

def APICallRecord.total_tokens (r : APICallRecord) : Nat :=
  r.input_tokens + r.output_tokens

/-- The distinguished budget-exceeded signal, carrying `(spent, budget)`. -/
structure BudgetExceededError where
  spent : ℚ
  budget : ℚ
  deriving Repr, DecidableEq

structure CostTracker where
  config : CostConfig
  records : List APICallRecord
  cache_savings : ℚ   -- `_cache_savings`
  deriving Repr, DecidableEq

/-- `total_cost`: pure projection over the ledger. -/
def CostTracker.total_cost (t : CostTracker) : ℚ :=
  (t.records.map APICallRecord.total_cost).sum

def CostTracker.total_tokens (t : CostTracker) : Nat :=
  (t.records.map APICallRecord.total_tokens).sum

def CostTracker.total_input_tokens (t : CostTracker) : Nat :=
  (t.records.map APICallRecord.input_tokens).sum

def CostTracker.total_output_tokens (t : CostTracker) : Nat :=
  (t.records.map APICallRecord.output_tokens).sum

def CostTracker.call_count (t : CostTracker) : Nat := t.records.length

/-- `CostTracker.record_call`.  Returns the mutated tracker together with
either the fresh record (`ok`) or the budget-exceeded signal (`error`). -/
def CostTracker.record_call (t : CostTracker) (model : String)
    (input_tokens output_tokens cached_tokens : Nat) :
    CostTracker × Except BudgetExceededError APICallRecord :=
  let costs : ℚ × ℚ × ℚ :=
    match t.config.pricing.lookup model with
    | some pricing =>
        ((input_tokens : ℚ) / 1000 * pricing.input_per_1k,
         (output_tokens : ℚ) / 1000 * pricing.output_per_1k,
         (cached_tokens : ℚ) / 1000 * pricing.input_per_1k)
    | none => (0, 0, 0)   -- unknown model: log a warning, zero cost
  let record : APICallRecord :=
    ⟨model, input_tokens, output_tokens, costs.1, costs.2.1, cached_tokens⟩
  let t' := { t with
    cache_savings := t.cache_savings + costs.2.2,
    records := t.records ++ [record] }
  let total := t'.total_cost
  let budget := t.config.budget_per_task_usd
  if total > budget then (t', .error ⟨total, budget⟩)
  else (t', .ok record)

/-- `summary()["total_cost_usd"]` (`round(self.total_cost, 6)`). -/
def CostTracker.summary_total_cost_usd (t : CostTracker) : ℚ :=
  roundTo t.total_cost 6

end Koda

namespace Koda

/-! ## `src/agent/router.py` — ComplexityRouter

Scores are modelled exactly over `ℚ`.  The Python keyword containers are
`set` literals whose iteration order is an interpreter detail; the embedding
lists them in source order (no claim depends on the order of matched
keywords inside a reason string).  The two `re.findall` calls are modelled
by direct left-to-right scanners that implement exactly what those patterns
match; `\w` is taken as ASCII `[A-Za-z0-9_]` (the unicode extension is
irrelevant to every claim). -/

def COMPLEX_KEYWORDS : List String :=
  ["refactor", "migrate", "restructure", "redesign", "overhaul",
   "add feature", "implement", "build", "create new",
   "across files", "multiple files", "entire codebase",
   "test suite", "end to end", "integration",
   "optimize", "performance", "benchmark"]

def SIMPLE_KEYWORDS : List String :=
  ["fix typo", "rename", "add import", "remove unused",
   "update version", "change value", "read file",
   "what is", "explain", "show me", "find"]

inductive TaskComplexity where
  | simple
  | complex
  deriving Repr, DecidableEq

structure RoutingDecision where
  complexity : TaskComplexity
  confidence : ℚ
  reason : String
  deriving Repr, DecidableEq

structure PlannerConfig where
  complexity_threshold : ℚ
  max_plan_steps : Nat
  replan_after_failures : Nat
  deriving Repr, DecidableEq

/-- Python regex `\w` over ASCII. -/
def isWordChar (c : Char) : Bool := c.isAlphanum || c == '_'

/-- Length of the leading run of `\w` characters. -/
def wordRunLen (cs : List Char) : Nat := (cs.takeWhile isWordChar).length

/-- Length of the leading run of `[\w/]` characters. -/
def fileRunLen (cs : List Char) : Nat :=
  (cs.takeWhile (fun c => isWordChar c || c == '/')).length

/-- Scanner for `re.findall(r"[\w/]+\.\w{1,4}", task)`: at each position the
only viable split of `[\w/]+` is its maximal run (a `.` is not a `[\w/]`
character, so backtracking inside the run cannot produce the required dot),
then the dot, then one to four greedy `\w` characters; scanning resumes
after each non-overlapping match, else one character later. -/
def countFileRefsAux : Nat → List Char → Nat
  | 0, _ => 0
  | _, [] => 0
  | fuel + 1, cs@(_ :: rest) =>
    let r := fileRunLen cs
    if r = 0 then countFileRefsAux fuel rest
    else
      match cs.drop r with
      | '.' :: tail =>
        let w := wordRunLen tail
        if w = 0 then countFileRefsAux fuel rest
        else 1 + countFileRefsAux fuel (cs.drop (r + 1 + min w 4))
      | _ => countFileRefsAux fuel rest

def countFileRefs (s : String) : Nat := countFileRefsAux s.length s.data

/-- The alternatives of `(?:then|after that|next|also|and then|finally)` in
the pattern's order. -/
def STEP_PATTERNS : List String :=
  ["then", "after that", "next", "also", "and then", "finally"]

/-- Scanner for `re.findall` of an alternation of literals: at each position
try the alternatives in order; a match is counted and skipped, otherwise
scanning advances one character. -/
def countAltMatchesAux (pats : List String) : Nat → List Char → Nat
  | 0, _ => 0
  | _, [] => 0
  | fuel + 1, cs@(_ :: rest) =>
    match pats.find? (fun p => p.data.isPrefixOf cs) with
    | some p => 1 + countAltMatchesAux pats fuel (cs.drop p.length)
    | none => countAltMatchesAux pats fuel rest

def countStepIndicators (s : String) : Nat :=
  countAltMatchesAux STEP_PATTERNS s.length s.data

/-- `ComplexityRouter.route`, scoring signals in source order. -/
def ComplexityRouter.route (config : PlannerConfig) (task : String) :
    RoutingDecision :=
  let task_lower := strToLower task
  let complex_matches := COMPLEX_KEYWORDS.filter (fun kw => strContains task_lower kw)
  let score₁ : ℚ := if complex_matches.isEmpty then 0
    else (3 / 10) * complex_matches.length
  let reasons₁ : List String := if complex_matches.isEmpty then []
    else ["Complex keywords: " ++ ", ".intercalate complex_matches]
  let simple_matches := SIMPLE_KEYWORDS.filter (fun kw => strContains task_lower kw)
  let score₂ := if simple_matches.isEmpty then score₁
    else score₁ - (3 / 10) * simple_matches.length
  let reasons₂ := reasons₁ ++ (if simple_matches.isEmpty then []
    else ["Simple keywords: " ++ ", ".intercalate simple_matches])
  let word_count := (splitWords task).length
  let score₃ := if word_count > 50 then score₂ + 2 / 10
    else if word_count < 10 then score₂ - 2 / 10 else score₂
  let reasons₃ := reasons₂ ++
    (if word_count > 50 then
      ["Long task description (" ++ natRepr word_count ++ " words)"]
    else if word_count < 10 then
      ["Short task description (" ++ natRepr word_count ++ " words)"]
    else [])
  let file_refs := countFileRefs task
  let score₄ := if file_refs > 2 then score₃ + 2 / 10 else score₃
  let reasons₄ := reasons₃ ++ (if file_refs > 2 then
    ["Multiple file references (" ++ natRepr file_refs ++ ")"] else [])
  let step_indicators := countStepIndicators task_lower
  let score₅ := if step_indicators > 0 then score₄ + (15 / 100) * step_indicators
    else score₄
  let reasons₅ := reasons₄ ++ (if step_indicators > 0 then
    ["Multi-step indicators (" ++ natRepr step_indicators ++ ")"] else [])
  let score := max 0 (min 1 (score₅ + 1 / 2))
  { complexity := if score ≥ config.complexity_threshold then .complex else .simple
    confidence := |score - 1 / 2| * 2
    reason := if reasons₅.isEmpty then "Default classification"
      else "; ".intercalate reasons₅ }

end Koda

namespace Koda

/-! ## `src/tools/base.py` and `src/tools/registry.py` — the tool contract

A tool's `validate_input` + `execute` pair is modelled as one function
`run : input → Except String ToolResult`: `.error msg` stands for an
exception escaping validation or execution, with `msg = str(e)` (which may
be empty — e.g. `ValueError()`).  Input payloads are association lists with
string values (the engine only ever reads string fields such as `path`).
The registry's `tool_call` / `tool_result` trace events do not affect the
returned result and are omitted here. -/

structure ToolResult where
  output : String
  success : Bool
  error : Option String
  deriving Repr, DecidableEq

/-- The spec's "never partially populated" invariant on a `ToolResult`
(`error: str | None`; `None` and `""` both count as an empty error).
`output` being a string is enforced by the type. -/
def ToolResult.wellFormed (r : ToolResult) : Prop :=
  (r.success = true → r.error.getD "" = "") ∧
  (r.success = false → r.error.getD "" ≠ "")

instance (r : ToolResult) : Decidable r.wellFormed := by
  unfold ToolResult.wellFormed; infer_instance

structure Tool where
  name : String
  run : List (String × String) → Except String ToolResult

/-- `BaseTool.safe_execute`: run validation + execution, trapping any
exception into a structured failure. -/
def Tool.safe_execute (t : Tool) (input : List (String × String)) : ToolResult :=
  match t.run input with
  | .ok r => r
  | .error e => ⟨"", false, some e⟩

structure ToolRegistry where
  tools : List (String × Tool)   -- `_tools`, name → tool

/-- `ToolRegistry.execute`: unknown names yield a structured failure;
known tools are dispatched through `safe_execute`. -/
def ToolRegistry.execute (reg : ToolRegistry) (name : String)
    (input : List (String × String)) : ToolResult :=
  match reg.tools.lookup name with
  | none => ⟨"", false, some ("Unknown tool: " ++ name)⟩
  | some tool => tool.safe_execute input

end Koda

namespace Koda

/-! ## `src/trace/models.py` and `src/trace/collector.py`

`uuid4` span ids are modelled by a per-collector fresh counter (`next_id`);
`time.time()` is an explicit `now : ℚ` argument.  Python's
`target == self._active_span` comparison is rendered as an id comparison:
ids are unique within a collector, and the reference the collector holds is
the very object being closed. -/

inductive EventType where
  | llm_request | llm_response | tool_call | tool_result | thought
  | plan_step | critic_check | cache_hit | cache_miss
  | memory_store | memory_recall | error | budget_warning
  deriving Repr, DecidableEq

structure TraceEvent where
  event_type : EventType
  data : List (String × String)
  timestamp : ℚ
  deriving Repr, DecidableEq

structure TraceSpan where
  name : String
  span_id : Nat
  parent_id : Option Nat
  start_time : ℚ
  end_time : Option ℚ
  events : List TraceEvent
  metadata : List (String × String)
  deriving Repr, DecidableEq

/-- `TraceSpan.close`: unconditionally stamp `end_time` with the current
time. -/
def TraceSpan.close (s : TraceSpan) (now : ℚ) : TraceSpan :=
  { s with end_time := some now }

/-- `duration_ms`, computed lazily from the endpoints. -/
def TraceSpan.duration_ms (s : TraceSpan) : Option ℚ :=
  s.end_time.map (fun e => (e - s.start_time) * 1000)

structure TraceCollector where
  task_id : String
  spans : List TraceSpan
  active_span : Option Nat   -- `_active_span`, by span id
  next_id : Nat              -- fresh-id source standing in for `uuid4`
  deriving Repr, DecidableEq

/-- `start_span`: append a fresh open span and make it active. -/
def TraceCollector.start_span (c : TraceCollector) (name : String)
    (parent_id : Option Nat) (metadata : List (String × String)) (now : ℚ) :
    TraceSpan × TraceCollector :=
  let span : TraceSpan := ⟨name, c.next_id, parent_id, now, none, [], metadata⟩
  (span,
   { c with
     spans := c.spans ++ [span],
     active_span := some span.span_id,
     next_id := c.next_id + 1 })

/-- `end_span(span?)`: pick the argument span, else the active one
(`target = span or self._active_span`); if some span is targeted, `close` it
in place and clear `_active_span` when the target is the active span. -/
def TraceCollector.end_span (c : TraceCollector) (span : Option Nat) (now : ℚ) :
    TraceCollector :=
  match span.orElse (fun _ => c.active_span) with
  | none => c
  | some tid =>
    let c' := { c with
      spans := c.spans.map (fun s => if s.span_id == tid then s.close now else s) }
    if c.active_span == some tid then { c' with active_span := none } else c'

end Koda

namespace Koda

/-! ## `src/cache/task_cache.py` — TaskCache

The sqlite table `task_chains` is a list of rows; the in-memory index is the
pair of parallel lists `_embeddings` / `_chain_ids`.  The embedder
(`_embed`) is passed in as a function.  Trace events recorded during a call
are returned as a list of event types (their payloads are not observed by
any claim).  `np.argmax` returns the index of the **first** maximum. -/

structure CacheConfig where
  similarity_threshold : ℚ
  enabled : Bool
  max_entries : Nat
  deriving Repr, DecidableEq

structure CachedChain where
  task_description : String
  tool_chain : List (String × List (String × String))
  files_modified : List String
  cost_usd : ℚ
  hit_count : Nat
  similarity : ℚ
  deriving Repr, DecidableEq

structure TaskChainRow where
  id : Nat
  task_description : String
  tool_chain : List (String × List (String × String))
  files_modified : List String
  cost_usd : ℚ
  hit_count : Nat
  embedding : List ℚ
  deriving Repr, DecidableEq

structure TaskCache where
  config : CacheConfig
  rows : List TaskChainRow       -- the `task_chains` table
  embeddings : List (List ℚ)     -- `_embeddings`
  chain_ids : List Nat           -- `_chain_ids`
  deriving Repr, DecidableEq

/-- Dot product (cosine similarity of normalised embeddings). -/
def dotProduct (a b : List ℚ) : ℚ := (List.zipWith (· * ·) a b).sum

/-- Index of the first maximum (`np.argmax`); `0` on an empty list. -/
def argmaxQ (l : List ℚ) : Nat :=
  (l.foldl
    (fun (acc : Nat × Nat × Option ℚ) x =>
      match acc with
      | (_, i, none) => (i, i + 1, some x)
      | (best, i, some v) =>
        if x > v then (i, i + 1, some x) else (best, i + 1, some v))
    (0, 0, none)).1

/-- `TaskCache.lookup`.  Returns the optional hit, the post-call cache
(the hit increments the matched row's `hit_count`), and the trace events
the call recorded. -/
def TaskCache.lookup (cache : TaskCache) (embed : String → List ℚ)
    (task : String) : Option CachedChain × TaskCache × List EventType :=
  if !cache.config.enabled || cache.embeddings.isEmpty then
    -- `if not self.config.enabled or not self._embeddings: return None`
    (none, cache, [])
  else
    let query_emb := embed task
    let similarities := cache.embeddings.map (fun e => dotProduct e query_emb)
    let best_idx := argmaxQ similarities
    let best_score := similarities.getD best_idx 0
    if best_score < cache.config.similarity_threshold then
      (none, cache, [.cache_miss])
    else
      let chain_id := cache.chain_ids.getD best_idx 0
      match cache.rows.find? (fun r => r.id == chain_id) with
      | none => (none, cache, [])
      | some row =>
        let cache' := { cache with
          rows := cache.rows.map (fun r =>
            if r.id == chain_id then { r with hit_count := r.hit_count + 1 } else r) }
        (some ⟨row.task_description, row.tool_chain, row.files_modified,
               row.cost_usd, row.hit_count + 1, best_score⟩,
         cache', [.cache_hit])

end Koda

namespace Koda

/-! ## `src/llm/models.py` — conversation and response model -/

inductive Role where
  | user | assistant
  deriving Repr, DecidableEq

inductive ContentBlock where
  | text (text : String)
  | toolUse (id : String) (name : String) (input : List (String × String))
  | toolResult (tool_use_id : String) (content : String) (is_error : Bool)
  deriving Repr, DecidableEq

structure Message where
  role : Role
  content : List ContentBlock
  deriving Repr, DecidableEq

structure Conversation where
  system_prompt : String
  messages : List Message
  deriving Repr, DecidableEq

def Conversation.add_user_message (c : Conversation) (text : String) : Conversation :=
  { c with messages := c.messages ++ [⟨.user, [.text text]⟩] }

def Conversation.add_assistant_message (c : Conversation)
    (content : List ContentBlock) : Conversation :=
  { c with messages := c.messages ++ [⟨.assistant, content⟩] }

def Conversation.add_tool_results (c : Conversation)
    (results : List ContentBlock) : Conversation :=
  { c with messages := c.messages ++ [⟨.user, results⟩] }

structure ToolUseContent where
  id : String
  name : String
  input : List (String × String)
  deriving Repr, DecidableEq

structure LLMResponse where
  content : List ContentBlock
  stop_reason : String
  model : String
  input_tokens : Nat
  output_tokens : Nat
  cache_read_tokens : Nat
  deriving Repr, DecidableEq

/-- `has_tool_calls := (stop_reason == "tool_use")`. -/
def LLMResponse.has_tool_calls (r : LLMResponse) : Bool :=
  r.stop_reason == "tool_use"

/-- The `tool_use` blocks of the response, in order. -/
def LLMResponse.tool_calls (r : LLMResponse) : List ToolUseContent :=
  r.content.filterMap fun b =>
    match b with
    | .toolUse id name input => some ⟨id, name, input⟩
    | _ => none

/-- Concatenated text blocks, `"\n".join(parts)`. -/
def LLMResponse.text (r : LLMResponse) : String :=
  "\n".intercalate (r.content.filterMap fun b =>
    match b with
    | .text t => some t
    | _ => none)

end Koda

namespace Koda

/-! ## `src/agent/loop.py` — AgentLoop

The LLM gateway is abstracted as `LLMStep`: per iteration index (exactly one
`chat` call happens per iteration) it consumes the conversation and the cost
tracker and either returns a parsed response (`ok`) — `chat` feeds the
tracker, so an updated tracker is returned alongside — or raises.  The two
exception classes the loop distinguishes are modelled by `LLMError`.

The loop is embedded for the `trace_collector=None`, default-`on_status`
configuration: every `if self.trace:` guard is skipped and status callbacks
are no-ops; neither affects the returned `AgentResult`.  `time.time()` is
replaced by an explicit `duration` argument consumed at result
construction.

A Python pitfall is modelled precisely: the result construction reads the
`for` loop variable (`iterations=min(iteration + 1, max_iterations)`).
When `range(max_iterations)` is empty that variable was never bound and
CPython raises `UnboundLocalError`; the embedding tracks the last bound
iteration index as an `Option Nat` and returns `Except.error` in that
case. -/

inductive LLMError where
  /-- `BudgetExceededError(spent, budget)` raised from inside `chat`. -/
  | budgetExceeded (spent budget : ℚ)
  /-- any other exception, carrying `str(e)`. -/
  | other (msg : String)

/-- One `llm.chat` call: iteration index → conversation → cost tracker →
(outcome, updated tracker). -/
def LLMStep : Type :=
  Nat → Conversation → CostTracker → Except LLMError LLMResponse × CostTracker

structure AgentResult where
  success : Bool
  response : String
  iterations : Nat
  tool_calls_made : List String
  files_modified : List String
  total_tokens : Nat
  total_cost_usd : ℚ
  duration_seconds : ℚ
  deriving Repr, DecidableEq

/-- The `SYSTEM_PROMPT` template with `{working_memory}` filled in. -/
def SYSTEM_PROMPT_TEMPLATE (working_memory : String) : String :=
  "You are Koda, an AI coding agent. You help developers by reading, understanding, and modifying code.\n\nYou have access to tools for interacting with the filesystem, running shell commands, searching code, and managing git.\n\nGuidelines:\n- Read files before modifying them\n- Run tests after making changes\n- Explain your reasoning before acting\n- If you\x27re unsure, search the codebase first\n- Keep changes minimal and focused\n\n"
  ++ working_memory ++ "\n"

/-- Python `str` on the values the loop stores in working memory
(`str | None`). -/
def pyOptStr : Option String → String
  | none => "None"
  | some s => s

/-- The loop's budget-exhaustion response,
`f"Task stopped: budget exceeded (${e.spent:.4f} of ${e.budget:.4f})"`. -/
def budgetMessage (spent budget : ℚ) : String :=
  "Task stopped: budget exceeded ($" ++ fmt4 spent ++ " of $" ++ fmt4 budget ++ ")"

/-- Mutable loop state threaded through one task run. -/
structure LoopState where
  conversation : Conversation
  memory : WorkingMemory (Option String)
  cost : CostTracker
  tool_calls_made : List String
  files_modified : List String

/-- The per-tool-call body of step 2f: record the name, execute through the
registry, track `write_file` successes, write the observation into working
memory, and build the `tool_result` block. -/
def execToolCall (registry : ToolRegistry) (st : LoopState) (tc : ToolUseContent) :
    LoopState × ContentBlock :=
  let st := { st with tool_calls_made := st.tool_calls_made ++ [tc.name] }
  let result := registry.execute tc.name tc.input
  let st :=
    if tc.name == "write_file" && result.success then
      let path := (tc.input.lookup "path").getD ""
      if path ≠ "" && !st.files_modified.contains path then
        { st with files_modified := st.files_modified ++ [path] }
      else st
    else st
  let st := { st with
    memory := st.memory.set ("last_" ++ tc.name)
      (if result.output ≠ "" then some (result.output.take 200) else result.error) }
  (st, .toolResult tc.id
    (if result.success then result.output
     else "Error: " ++ pyOptStr result.error ++ "\n" ++ result.output)
    (!result.success))

/-- All tool calls of one response, in emission order. -/
def runToolCalls (registry : ToolRegistry) (st : LoopState)
    (tcs : List ToolUseContent) : LoopState × List ContentBlock :=
  tcs.foldl
    (fun acc tc =>
      let r := execToolCall registry acc.1 tc
      (r.1, acc.2 ++ [r.2]))
    (st, [])

/-- One iteration of the `for` loop: `some response` means the iteration hit
a `break` with `final_response = response`; `none` means it fell through to
the next iteration. -/
def iterBody (llm : LLMStep) (registry : ToolRegistry) (iteration : Nat)
    (st : LoopState) : LoopState × Option String :=
  match llm iteration st.conversation st.cost with
  | (.error (.budgetExceeded spent budget), cost') =>
    ({ st with cost := cost' }, some (budgetMessage spent budget))
  | (.error (.other msg), cost') =>
    ({ st with cost := cost' }, some ("Agent encountered an error: " ++ msg))
  | (.ok response, cost') =>
    let st := { st with
      cost := cost',
      conversation := st.conversation.add_assistant_message response.content }
    if !response.has_tool_calls then
      (st, some response.text)
    else
      let r := runToolCalls registry st response.tool_calls
      ({ r.1 with conversation := r.1.conversation.add_tool_results r.2 }, none)

/-- The iteration loop from index `i` with `remaining` iterations left.
Returns the final state, the `break` response if any, and the last bound
value of the loop variable (`none` when no iteration ran). -/
def loopGo (llm : LLMStep) (registry : ToolRegistry) :
    Nat → Nat → LoopState → LoopState × Option String × Option Nat
  | _, 0, st => (st, none, none)
  | i, remaining + 1, st =>
    match iterBody llm registry i st with
    | (st', some response) => (st', some response, some i)
    | (st', none) =>
      match loopGo llm registry (i + 1) remaining st' with
      | (st'', response, last) => (st'', response, some (last.getD i))

/-- Step 1 of `run` (start-up): build the system prompt from the scratchpad
rendering and the optional `Context:` block, create a fresh conversation and
append the task as the first user message. -/
def AgentLoop.initialState (memory : WorkingMemory (Option String))
    (cost : CostTracker) (task context : String) : LoopState :=
  let system₀ := SYSTEM_PROMPT_TEMPLATE (memory.to_context_string pyOptStr)
  let system := if context ≠ "" then system₀ ++ "\n\nContext:\n" ++ context
    else system₀
  ⟨(Conversation.mk system []).add_user_message task, memory, cost, [], []⟩

/-- `AgentLoop.run(task, context)`.  `Except.error` models the
`UnboundLocalError` CPython raises at result construction when
`max_iterations = 0` (see the section comment). -/
def AgentLoop.run (llm : LLMStep) (registry : ToolRegistry)
    (max_iterations : Nat) (memory : WorkingMemory (Option String))
    (cost : CostTracker) (task context : String) (duration : ℚ) :
    Except String AgentResult :=
  match loopGo llm registry 0 max_iterations
      (AgentLoop.initialState memory cost task context) with
  | (st, brk, lastIteration) =>
    let final_response :=
      match brk with
      | some r => r
      | none =>   -- the `for`'s `else:` clause
        "Task stopped after " ++ natRepr max_iterations ++ " iterations (max reached)"
    match lastIteration with
    | none =>
      .error "UnboundLocalError: local variable iteration referenced before assignment"
    | some iteration =>
      .ok {
        success := final_response ≠ "" &&
          !strContains (strToLower final_response) "error",
        response := final_response,
        iterations := min (iteration + 1) max_iterations,
        tool_calls_made := st.tool_calls_made,
        files_modified := st.files_modified,
        total_tokens := st.cost.total_tokens,
        total_cost_usd := st.cost.summary_total_cost_usd,
        duration_seconds := roundTo duration 2 }

end Koda

namespace Koda

/-! ## Claim theorems -/

/-- **C10**: for every key absent from the store and every default value,
`WorkingMemory.get(key, default)` returns the default and leaves the memory
completely unchanged — no key is added or evicted and the access (LRU)
order is untouched. -/
theorem workingMemory_get_absent_frame {α : Type} (m : WorkingMemory α)
    (key : String) (default : α) (h : m.entries.lookup key = none) :
    m.get key default = (default, m) := by
  unfold WorkingMemory.get
  rw [h]

/-- Witness for C10 at a concrete memory and missing key. -/
theorem workingMemory_get_absent_frame_witness :
    (WorkingMemory.mk 20 [("current_file", "a.py")]).get "missing" "dflt"
      = ("dflt", WorkingMemory.mk 20 [("current_file", "a.py")]) :=
  workingMemory_get_absent_frame _ "missing" "dflt" rfl

/-- The tracker of the `tests/test_cost_tracker.py` fixture: budget $0.10,
`test-model` priced 0.003/0.015 per 1k tokens. -/
def fixtureTracker : CostTracker :=
  ⟨⟨1/10, [("test-model", ⟨3/1000, 15/1000⟩)]⟩, [], 0⟩

/-- The fixture tracker after the first (in-budget) call of
`test_budget_exceeded`. -/
def fixtureTrackerAfterCall1 : CostTracker :=
  (fixtureTracker.record_call "test-model" 5000 2000 0).1

/-- **C2** counterexample (the `test_budget_exceeded` fixture): the second
call pushes the total to $0.15 > $0.10 and `record_call` raises the
budget-exceeded signal — but the failing call's record **is** appended, so
"the ledger is unchanged by the failing call" is false on the code
(`self.records.append(record)` runs before the budget comparison). -/
theorem costTracker_budget_ledger_counterexample :
    (fixtureTrackerAfterCall1.record_call "test-model" 10000 5000 0).2
      = .error ⟨3/20, 1/10⟩ ∧
    (fixtureTrackerAfterCall1.record_call "test-model" 10000 5000 0).1.records
      = fixtureTrackerAfterCall1.records
          ++ [⟨"test-model", 10000, 5000, 3/100, 3/40, 0⟩] ∧
    (fixtureTrackerAfterCall1.record_call "test-model" 10000 5000 0).1.records
      ≠ fixtureTrackerAfterCall1.records := by
  simp only [fixtureTrackerAfterCall1, fixtureTracker, CostTracker.record_call,
    CostTracker.total_cost, List.lookup, List.map, List.sum]
  norm_num [APICallRecord.total_cost]

/-- **C2 (amended)**: when a `record_call` brings the cumulative total over
the budget it fails with the budget-exceeded signal carrying
`(spent = the new total, budget)`, and the failing call's record **is**
appended: the ledger grows by exactly that record before the signal is
raised. -/
theorem costTracker_record_call_over_budget (t : CostTracker) (model : String)
    (input_tokens output_tokens cached_tokens : Nat)
    (h : (t.record_call model input_tokens output_tokens cached_tokens).1.total_cost
          > t.config.budget_per_task_usd) :
    (t.record_call model input_tokens output_tokens cached_tokens).2 =
      .error ⟨(t.record_call model input_tokens output_tokens cached_tokens).1.total_cost,
              t.config.budget_per_task_usd⟩ ∧
    ∃ rec, (t.record_call model input_tokens output_tokens cached_tokens).1.records
            = t.records ++ [rec] := by
  unfold CostTracker.record_call at h ⊢
  dsimp only at h ⊢
  split
  · exact ⟨rfl, _, rfl⟩
  · next hc =>
    rw [if_neg hc] at h
    exact absurd h hc

/-- Witness for C2 (amended): the second fixture call. -/
theorem costTracker_record_call_over_budget_witness :
    (CostTracker.record_call
        ⟨⟨1/10, [("test-model", ⟨3/1000, 15/1000⟩)]⟩,
         [⟨"test-model", 5000, 2000, 3/200, 3/100, 0⟩], 0⟩
        "test-model" 10000 5000 0).2 =
      .error ⟨(CostTracker.record_call
          ⟨⟨1/10, [("test-model", ⟨3/1000, 15/1000⟩)]⟩,
           [⟨"test-model", 5000, 2000, 3/200, 3/100, 0⟩], 0⟩
          "test-model" 10000 5000 0).1.total_cost, 1/10⟩ ∧
    ∃ rec, (CostTracker.record_call
        ⟨⟨1/10, [("test-model", ⟨3/1000, 15/1000⟩)]⟩,
         [⟨"test-model", 5000, 2000, 3/200, 3/100, 0⟩], 0⟩
        "test-model" 10000 5000 0).1.records
      = [⟨"test-model", 5000, 2000, 3/200, 3/100, 0⟩] ++ [rec] :=
  costTracker_record_call_over_budget _ "test-model" 10000 5000 0 (by
    simp only [fixtureTrackerAfterCall1, fixtureTracker, CostTracker.record_call,
      CostTracker.total_cost, List.lookup, List.map, List.sum]
    norm_num [APICallRecord.total_cost])

/-- **C4** counterexample: on the empty task the word-count signal fires
(`0 < 10` words), so `route("")` has confidence `0.4` and reason
`"Short task description (0 words)"` — not the default classification with
confidence `0.0` the claim states. -/
theorem router_empty_task_counterexample :
    (ComplexityRouter.route ⟨3/5, 10, 2⟩ "").complexity = TaskComplexity.simple ∧
    (ComplexityRouter.route ⟨3/5, 10, 2⟩ "").confidence = 2/5 ∧
    (ComplexityRouter.route ⟨3/5, 10, 2⟩ "").reason
      = "Short task description (0 words)" ∧
    ¬((ComplexityRouter.route ⟨3/5, 10, 2⟩ "").confidence = 0 ∧
      (ComplexityRouter.route ⟨3/5, 10, 2⟩ "").reason = "Default classification") := by
  have h1 : COMPLEX_KEYWORDS.filter (fun kw => strContains (strToLower "") kw) = [] := by
    decide
  have h2 : SIMPLE_KEYWORDS.filter (fun kw => strContains (strToLower "") kw) = [] := by
    decide
  have h3 : splitWords "" = [] := by decide
  have h4 : countFileRefs "" = 0 := by decide
  have h5 : countStepIndicators (strToLower "") = 0 := by decide
  have h : ComplexityRouter.route ⟨3/5, 10, 2⟩ ""
      = ⟨TaskComplexity.simple, 2/5, "Short task description (0 words)"⟩ := by
    simp only [ComplexityRouter.route, h1, h2, h3, h4, h5, List.isEmpty, List.length]
    norm_num
    constructor
    · norm_num [abs]
    · rfl
  rw [h]
  refine ⟨rfl, rfl, rfl, ?_⟩
  rintro ⟨hc, -⟩
  norm_num at hc

/-- **C4 (amended)**: with the default configuration
(`complexity_threshold = 0.6`), `route("")` returns `simple` with
confidence `0.4` (exact arithmetic) and reason
`"Short task description (0 words)"` — the `word_count < 10` signal fires
on the empty string, so the default-classification reason is not used. -/
theorem router_route_empty_short_task :
    ComplexityRouter.route ⟨3/5, 10, 2⟩ "" =
      ⟨TaskComplexity.simple, 2/5, "Short task description (0 words)"⟩ := by
  have h1 : COMPLEX_KEYWORDS.filter (fun kw => strContains (strToLower "") kw) = [] := by
    decide
  have h2 : SIMPLE_KEYWORDS.filter (fun kw => strContains (strToLower "") kw) = [] := by
    decide
  have h3 : splitWords "" = [] := by decide
  have h4 : countFileRefs "" = 0 := by decide
  have h5 : countStepIndicators (strToLower "") = 0 := by decide
  simp only [ComplexityRouter.route, h1, h2, h3, h4, h5, List.isEmpty, List.length]
  norm_num
  constructor
  · norm_num [abs]
  · rfl

/-- **C5**: `ToolRegistry.execute` on an absent name returns the structured
"Unknown tool" failure (it is a total function — nothing is raised), and
`safe_execute` converts any exception (modelled by `run` returning
`.error e`, `e = str(exc)`) into `{success := false, error := e}`, passing
through the tool's own result otherwise; registered names dispatch through
`safe_execute`, so no raw exception escapes `execute` either. -/
theorem toolRegistry_execute_never_raises (reg : ToolRegistry) (name : String)
    (input : List (String × String)) (t : Tool) :
    (reg.tools.lookup name = none →
      reg.execute name input = ⟨"", false, some ("Unknown tool: " ++ name)⟩) ∧
    (∀ e, t.run input = .error e → t.safe_execute input = ⟨"", false, some e⟩) ∧
    (∀ r, t.run input = .ok r → t.safe_execute input = r) ∧
    (∀ tool, reg.tools.lookup name = some tool →
      reg.execute name input = tool.safe_execute input) := by
  refine ⟨fun h => ?_, fun e he => ?_, fun r hr => ?_, fun tool htool => ?_⟩
  · unfold ToolRegistry.execute; rw [h]
  · unfold Tool.safe_execute; rw [he]
  · unfold Tool.safe_execute; rw [hr]
  · unfold ToolRegistry.execute; rw [htool]

/-- A tool whose execution raises (`str(e) = "boom"`). -/
def alwaysBoomTool : Tool := ⟨"boom", fun _ => .error "boom"⟩

/-- Witness for C5: the unknown-tool path and the exception-trap path at
concrete inputs. -/
theorem toolRegistry_execute_never_raises_witness :
    ToolRegistry.execute ⟨[]⟩ "frobnicate" []
      = ⟨"", false, some "Unknown tool: frobnicate"⟩ ∧
    Tool.safe_execute alwaysBoomTool [] = ⟨"", false, some "boom"⟩ :=
  ⟨(toolRegistry_execute_never_raises ⟨[]⟩ "frobnicate" [] alwaysBoomTool).1 rfl,
   (toolRegistry_execute_never_raises ⟨[]⟩ "frobnicate" [] alwaysBoomTool).2.1 "boom" rfl⟩

/-- `git_status` when the git subprocess exits nonzero producing no output:
`src/tools/git.py` line 49 returns `ToolResult(output="", success=False,
error=output)` with `output == ""` — a failed result with an empty error. -/
def gitStatusEmptyFailTool : Tool := ⟨"git_status", fun _ => .ok ⟨"", false, some ""⟩⟩

/-- **C6** counterexample: a result produced via `ToolRegistry.execute` that
is partially populated — `success=false` with an empty error.  The registry
and `safe_execute` pass a tool's own `ToolResult` through unvalidated, and
the `ToolResult` model itself (`error: str | None = None`) permits it; the
shape occurs in-repo (`git_status` on a silent nonzero git exit). -/
theorem toolResult_wellformed_counterexample :
    (ToolRegistry.execute ⟨[("git_status", gitStatusEmptyFailTool)]⟩
        "git_status" []).success = false ∧
    (ToolRegistry.execute ⟨[("git_status", gitStatusEmptyFailTool)]⟩
        "git_status" []).error.getD "" = "" ∧
    ¬(ToolRegistry.execute ⟨[("git_status", gitStatusEmptyFailTool)]⟩
        "git_status" []).wellFormed := by
  decide

/-- **C6 (amended)**: the registry-synthesised results are never partially
populated — the unknown-tool result is well-formed, and the exception trap
yields a well-formed failure whenever the exception message is non-empty —
and `execute`/`safe_execute` preserve well-formedness of whatever a tool's
own `execute` returns; the invariant is **not** enforced on the tool's own
results (they pass through unvalidated, which is what C6's counterexample
exhibits). -/
theorem toolResult_wellformed_amended (reg : ToolRegistry) (name : String)
    (input : List (String × String)) (t : Tool) :
    (reg.tools.lookup name = none → (reg.execute name input).wellFormed) ∧
    (∀ e, t.run input = .error e → e ≠ "" → (t.safe_execute input).wellFormed) ∧
    (∀ r, t.run input = .ok r → r.wellFormed → (t.safe_execute input).wellFormed) := by
  refine ⟨fun h => ?_, fun e he hne => ?_, fun r hr hwf => ?_⟩
  · unfold ToolRegistry.execute
    rw [h]
    refine ⟨fun hs => by simp at hs, fun _ => ?_⟩
    intro hcontra
    have := congrArg String.data hcontra
    simp [String.data_append] at this
  · unfold Tool.safe_execute
    rw [he]
    exact ⟨fun hs => by simp at hs, fun _ => hne⟩
  · unfold Tool.safe_execute
    rw [hr]
    exact hwf

/-- Witness for C6 (amended) at concrete inputs: unknown tool, a raising
tool with non-empty message, and a well-formed pass-through. -/
theorem toolResult_wellformed_amended_witness :
    (ToolRegistry.execute ⟨[]⟩ "frob" []).wellFormed ∧
    (Tool.safe_execute alwaysBoomTool []).wellFormed := by
  have h := toolResult_wellformed_amended ⟨[]⟩ "frob" [] alwaysBoomTool
  exact ⟨h.1 rfl, h.2.1 "boom" rfl (by decide)⟩

end Koda

namespace Koda

/-- **C8** counterexample: on an enabled cache with no entries, `lookup`
returns `None` from the early guard (`task_cache.py` line 118) without
recording **any** trace event — the claimed `cache_miss` event is not
emitted (misses are only recorded on the below-threshold path). -/
theorem taskCache_lookup_empty_counterexample :
    TaskCache.lookup ⟨⟨85/100, true, 1000⟩, [], [], []⟩
        (fun _ => List.replicate 384 0) "fix the login bug"
      = (none, ⟨⟨85/100, true, 1000⟩, [], [], []⟩, []) ∧
    EventType.cache_miss ∉
      (TaskCache.lookup ⟨⟨85/100, true, 1000⟩, [], [], []⟩
        (fun _ => List.replicate 384 0) "fix the login bug").2.2 := by
  constructor
  · rfl
  · intro h
    simp [TaskCache.lookup] at h

/-- **C8 (amended)**: for every task string, `lookup` on an enabled cache
that contains no entries returns nothing, leaves the cache unchanged, and
emits **no** trace event (in particular no `cache_miss`). -/
theorem taskCache_lookup_empty_silent (cache : TaskCache)
    (embed : String → List ℚ) (task : String)
    (henabled : cache.config.enabled = true)
    (hempty : cache.embeddings = []) :
    cache.lookup embed task = (none, cache, []) := by
  unfold TaskCache.lookup
  rw [henabled, hempty]
  simp

/-- Witness for C8 (amended) at a concrete enabled empty cache. -/
theorem taskCache_lookup_empty_silent_witness :
    TaskCache.lookup ⟨⟨85/100, true, 1000⟩, [], [], []⟩
        (fun _ => List.replicate 384 0) "compile the kernel"
      = (none, ⟨⟨85/100, true, 1000⟩, [], [], []⟩, []) :=
  taskCache_lookup_empty_silent _ _ "compile the kernel" rfl rfl

/-- A span that was closed at time 5 (already has an `end_time`). -/
def closedSpanExample : TraceSpan := ⟨"iteration_0", 0, none, 1, some 5, [], []⟩

/-- A collector holding only `closedSpanExample`, with no active span. -/
def collectorExample : TraceCollector := ⟨"task-1", [closedSpanExample], none, 1⟩

/-- **C9** counterexample: `end_span` on an already-closed span is **not**
idempotent — `collector.py` line 50 calls `target.close()` unconditionally,
overwriting `end_time` (5 → 9) and hence `duration_ms` (4000ms → 8000ms). -/
theorem traceCollector_end_span_counterexample :
    (collectorExample.end_span (some 0) 9).spans
      = [⟨"iteration_0", 0, none, 1, some 9, [], []⟩] ∧
    (collectorExample.end_span (some 0) 9).spans ≠ collectorExample.spans ∧
    (collectorExample.end_span (some 0) 9).spans.map TraceSpan.duration_ms
      = [some 8000] ∧
    collectorExample.spans.map TraceSpan.duration_ms = [some 4000] := by
  refine ⟨rfl, ?_, ?_, ?_⟩
  · intro h
    simp [TraceCollector.end_span, collectorExample, closedSpanExample,
      TraceSpan.close] at h
  · simp [TraceCollector.end_span, collectorExample, closedSpanExample,
      TraceSpan.close, TraceSpan.duration_ms]
    norm_num
  · simp [collectorExample, closedSpanExample, TraceSpan.duration_ms]
    norm_num

/-- `end_span (some tid)` maps an unconditional `close` over the targeted
span, whatever the active span is. -/
theorem traceCollector_end_span_some_spans (c : TraceCollector) (tid : Nat)
    (now : ℚ) :
    (c.end_span (some tid) now).spans
      = c.spans.map (fun x => if x.span_id == tid then x.close now else x) := by
  unfold TraceCollector.end_span
  dsimp only [Option.orElse]
  split <;> rfl

/-- **C9 (amended)**: `end_span` on an already-closed span closes it again:
the targeted span's `end_time` is overwritten with the current time, so the
span is left unchanged only when the clock equals the stored `end_time`. -/
theorem traceCollector_end_span_recloses (c : TraceCollector) (s : TraceSpan)
    (now t₁ : ℚ) (hmem : s ∈ c.spans) (hclosed : s.end_time = some t₁) :
    s.close now ∈ (c.end_span (some s.span_id) now).spans ∧
    (s.close now).end_time = some now ∧
    (s.close now = s ↔ now = t₁) := by
  refine ⟨?_, rfl, ?_⟩
  · rw [traceCollector_end_span_some_spans]
    exact List.mem_map.mpr ⟨s, hmem, by simp⟩
  · unfold TraceSpan.close
    constructor
    · intro h
      have := congrArg TraceSpan.end_time h
      simp [hclosed] at this
      exact this
    · intro h
      cases s
      simp_all

/-- Witness for C9 (amended) at the concrete closed span. -/
theorem traceCollector_end_span_recloses_witness :
    TraceSpan.close closedSpanExample 9
        ∈ (collectorExample.end_span (some closedSpanExample.span_id) 9).spans ∧
    (TraceSpan.close closedSpanExample 9).end_time = some 9 ∧
    (TraceSpan.close closedSpanExample 9 = closedSpanExample ↔ (9 : ℚ) = 5) :=
  traceCollector_end_span_recloses collectorExample closedSpanExample 9 5
    (by simp [collectorExample]) rfl

/-- **C3** (code bug): with `max_tool_iterations = 0` the `for` loop body
never runs, so the loop variable `iteration` is never bound; the result
construction at `loop.py` line 209 (`iterations=min(iteration + 1, …)`)
then raises `UnboundLocalError` instead of returning the promised
`AgentResult`.  The statement holds for **every** LLM client — the LLM is
indeed never invoked — and for every registry, memory, tracker and task,
but no `AgentResult` with the "max reached" message is returned. -/
theorem agentLoop_run_zero_iterations_crashes (llm : LLMStep)
    (registry : ToolRegistry) (memory : WorkingMemory (Option String))
    (cost : CostTracker) (task context : String) (duration : ℚ) :
    AgentLoop.run llm registry 0 memory cost task context duration =
      .error "UnboundLocalError: local variable iteration referenced before assignment" :=
  rfl

end Koda

namespace Koda

/-! ### LRU lemmas for C7 -/

theorem mem_dedupLast {a : String} : ∀ {l : List String}, a ∈ dedupLast l ↔ a ∈ l := by
  intro l
  induction l with
  | nil => simp [dedupLast]
  | cons k rest ih =>
    by_cases hk : k ∈ rest
    · simp only [dedupLast, if_pos hk, ih, List.mem_cons]
      constructor
      · exact Or.inr
      · rintro (rfl | h)
        · exact hk
        · exact h
    · simp [dedupLast, if_neg hk, ih]

theorem dedupLast_nodup : ∀ (l : List String), (dedupLast l).Nodup := by
  intro l
  induction l with
  | nil => simp [dedupLast]
  | cons k rest ih =>
    by_cases hk : k ∈ rest
    · simpa [dedupLast, if_pos hk] using ih
    · simp only [dedupLast, if_neg hk]
      exact List.nodup_cons.mpr ⟨fun hmem => hk (mem_dedupLast.mp hmem), ih⟩

theorem dedupLast_append_singleton (l : List String) (k : String) :
    dedupLast (l ++ [k]) = (dedupLast l).filter (fun a => a ≠ k) ++ [k] := by
  induction l with
  | nil => simp [dedupLast]
  | cons a t ih =>
    by_cases hak : a = k
    · subst hak
      have hmem : a ∈ t ++ [a] := by simp
      rw [List.cons_append, dedupLast, if_pos hmem, ih]
      by_cases hat : a ∈ t
      · rw [dedupLast, if_pos hat]
      · rw [dedupLast, if_neg hat]
        simp
    · have hiff : a ∈ t ++ [k] ↔ a ∈ t := by simp [hak]
      by_cases hat : a ∈ t
      · rw [List.cons_append, dedupLast, if_pos (hiff.mpr hat), ih,
          dedupLast, if_pos hat]
      · rw [List.cons_append, dedupLast, if_neg (fun h => hat (hiff.mp h)), ih,
          dedupLast, if_neg hat]
        simp [hak]

theorem map_fst_filter_ne {α : Type} (l : List (String × α)) (k : String) :
    (l.filter (fun p => p.1 ≠ k)).map Prod.fst
      = (l.map Prod.fst).filter (fun a => a ≠ k) := by
  induction l with
  | nil => rfl
  | cons p t ih =>
    simp only [ne_eq, decide_not] at ih ⊢
    by_cases hp : p.1 = k
    · simp [List.filter_cons, hp, ih]
    · simp [List.filter_cons, hp, ih]

/-- The keys of `m.set k v`, computed from the keys of `m`. -/
theorem set_entries_keys {α : Type} (m : WorkingMemory α) (k : String) (v : α) :
    (m.set k v).entries.map Prod.fst
      = ((m.entries.map Prod.fst).filter (fun a => a ≠ k) ++ [k]).drop
          (((m.entries.map Prod.fst).filter (fun a => a ≠ k) ++ [k]).length
            - m.max_items) := by
  unfold WorkingMemory.set
  dsimp only
  rw [List.map_drop]
  have hmap : (List.filter (fun p => p.1 ≠ k) m.entries ++ [(k, v)]).map Prod.fst
      = (m.entries.map Prod.fst).filter (fun a => a ≠ k) ++ [k] := by
    rw [List.map_append, map_fst_filter_ne]
    rfl
  have hlen : (List.filter (fun p => p.1 ≠ k) m.entries ++ [(k, v)]).length
      = ((m.entries.map Prod.fst).filter (fun a => a ≠ k) ++ [k]).length := by
    rw [← hmap, List.length_map]
  rw [hmap, hlen]

/-- The LRU eviction step commutes with restricting to the last `max` keys:
applying the "remove `k`, append `k`, truncate to the last `max`" step to
`takeLast d max` gives the same keys as applying it to the full
last-occurrence order `d` (needs `d` duplicate-free). -/
theorem drop_sub_append {γ : Type} (A B : List γ) (max : Nat)
    (h : max ≤ B.length) :
    (A ++ B).drop ((A ++ B).length - max) = B.drop (B.length - max) := by
  rw [List.drop_append_eq_append_drop]
  have h1 : A.drop ((A ++ B).length - max) = [] := by
    apply List.drop_eq_nil_of_le
    simp only [List.length_append]
    omega
  rw [h1, List.nil_append]
  congr 1
  simp only [List.length_append]
  omega

theorem lru_drop_step (d : List String) (k : String) (max : Nat)
    (hd : d.Nodup) :
    (((d.drop (d.length - max)).filter (fun a => a ≠ k) ++ [k]).drop
        (((d.drop (d.length - max)).filter (fun a => a ≠ k) ++ [k]).length - max))
      = ((d.filter (fun a => a ≠ k) ++ [k]).drop
          ((d.filter (fun a => a ≠ k) ++ [k]).length - max)) := by
  by_cases hle : d.length ≤ max
  · have h0 : d.length - max = 0 := by omega
    rw [h0, List.drop_zero]
  · push_neg at hle
    have hsplit : d.take (d.length - max) ++ d.drop (d.length - max) = d :=
      List.take_append_drop _ _
    set pre := d.take (d.length - max) with hpre
    set t := d.drop (d.length - max) with ht
    have htnodup : t.Nodup := by
      rw [← hsplit] at hd
      exact hd.of_append_right
    have htlen : t.length = max := by
      rw [ht, List.length_drop]
      omega
    have herase : t.erase k = t.filter (fun a => a ≠ k) := by
      rw [htnodup.erase_eq_filter k]
      congr 1
      funext a
      by_cases h : a = k <;> simp [bne, h]
    have htfiltlen : max - 1 ≤ (t.filter (fun a => a ≠ k)).length := by
      by_cases hkt : k ∈ t
      · have h1 := List.length_erase_of_mem hkt
        rw [herase] at h1
        omega
      · have h2 : t.erase k = t := List.erase_of_not_mem hkt
        rw [h2] at herase
        have h3 := congrArg List.length herase
        omega
    have hLlen : max ≤ ((t.filter (fun a => a ≠ k)) ++ [k]).length := by
      rw [List.length_append]
      simp only [List.length_singleton]
      omega
    have hgoal : d.filter (fun a => a ≠ k) ++ [k]
        = pre.filter (fun a => a ≠ k) ++ (t.filter (fun a => a ≠ k) ++ [k]) := by
      rw [← hsplit, List.filter_append, List.append_assoc]
    rw [hgoal]
    exact (drop_sub_append _ _ max hLlen).symm

/-- Starting from an empty memory, the access order after any sequence of
`set` calls is exactly the last `max_items` distinct keys of the call
sequence, each key at its last-occurrence position. -/
theorem setAll_max_items {α : Type} (ops : List (String × α)) :
    ∀ (m : WorkingMemory α), (m.setAll ops).max_items = m.max_items := by
  induction ops with
  | nil => intro m; rfl
  | cons p t ih =>
    intro m
    show ((m.set p.1 p.2).setAll t).max_items = m.max_items
    rw [ih]
    rfl

theorem setAll_keys {α : Type} (max : Nat) (ops : List (String × α)) :
    ((WorkingMemory.mk max ([] : List (String × α))).setAll ops).entries.map Prod.fst
      = takeLast (dedupLast (ops.map Prod.fst)) max := by
  induction ops using List.reverseRecOn with
  | nil => simp [WorkingMemory.setAll, takeLast, dedupLast]
  | append_singleton ops p ih =>
    have hstep : (WorkingMemory.mk max ([] : List (String × α))).setAll (ops ++ [p])
        = ((WorkingMemory.mk max ([] : List (String × α))).setAll ops).set p.1 p.2 := by
      unfold WorkingMemory.setAll
      rw [List.foldl_append]
      rfl
    rw [hstep, set_entries_keys, ih, setAll_max_items, List.map_append]
    simp only [List.map_cons, List.map_nil]
    rw [dedupLast_append_singleton]
    unfold takeLast
    exact lru_drop_step (dedupLast (ops.map Prod.fst)) p.1 max
      (dedupLast_nodup (ops.map Prod.fst))

end Koda

namespace Koda

/-- Keys that a filter removed do not answer a lookup: skipping a prefix
whose entries all have keys different from `k` leaves the lookup result. -/
theorem lookup_append_of_ne {α : Type} (A : List (String × α)) (k : String)
    (h : ∀ p ∈ A, p.1 ≠ k) (rest : List (String × α)) :
    List.lookup k (A ++ rest) = List.lookup k rest := by
  induction A with
  | nil => rfl
  | cons a t ih =>
    have hk : (k == a.1) = false := by
      have := h a (List.mem_cons_self a t)
      simp [beq_eq_false_iff_ne]
      exact fun hc => this hc.symm
    rw [List.cons_append, List.lookup, hk]
    exact ih (fun p hp => h p (List.mem_cons_of_mem a hp))

/-- **C7**: (a) `set(k, v); get(k)` returns `v` (for any memory of positive
capacity — a capacity-0 scratchpad immediately evicts what it stores, and
`max_working_items` is 20 by default); (b) starting from an empty memory,
after any sequence of `set` calls touching more than `capacity` distinct
keys, the memory holds **exactly** the last `capacity` distinct keys in
access order (eviction removed the least-recently-used ones), where "the
last `capacity` distinct keys" are the last `capacity` entries of the
keys' last-occurrence order `dedupLast`. -/
theorem workingMemory_set_get_and_lru :
    (∀ (α : Type) (m : WorkingMemory α) (k : String) (v d : α),
      0 < m.max_items → ((m.set k v).get k d).1 = v) ∧
    (∀ (α : Type) (max : Nat) (ops : List (String × α)),
      max < (dedupLast (ops.map Prod.fst)).length →
      ((WorkingMemory.mk max ([] : List (String × α))).setAll ops).entries.map
          Prod.fst = takeLast (dedupLast (ops.map Prod.fst)) max ∧
      (((WorkingMemory.mk max ([] : List (String × α))).setAll ops).entries.map
          Prod.fst).length = max) := by
  constructor
  · intro α m k v d hmax
    unfold WorkingMemory.set WorkingMemory.get
    dsimp only
    have hfle : (m.entries.filter (fun p => p.1 ≠ k) ++ [(k, v)]).length - m.max_items
        ≤ (m.entries.filter (fun p => p.1 ≠ k)).length := by
      rw [List.length_append]
      simp only [List.length_singleton]
      omega
    have hdrop : (m.entries.filter (fun p => p.1 ≠ k) ++ [(k, v)]).drop
          ((m.entries.filter (fun p => p.1 ≠ k) ++ [(k, v)]).length - m.max_items)
        = (m.entries.filter (fun p => p.1 ≠ k)).drop
            ((m.entries.filter (fun p => p.1 ≠ k) ++ [(k, v)]).length - m.max_items)
          ++ [(k, v)] := by
      rw [List.drop_append_eq_append_drop]
      congr 1
      have : (m.entries.filter (fun p => p.1 ≠ k) ++ [(k, v)]).length - m.max_items
          - (m.entries.filter (fun p => p.1 ≠ k)).length = 0 := by omega
      rw [this, List.drop_zero]
    rw [hdrop, lookup_append_of_ne]
    · simp [List.lookup]
    · intro p hp
      have hmem := List.mem_of_mem_drop hp
      have := List.of_mem_filter hmem
      simpa using this
  · intro α max ops hmore
    refine ⟨setAll_keys max ops, ?_⟩
    rw [setAll_keys]
    unfold takeLast
    rw [List.length_drop]
    omega

/-- Witness for C7 at concrete inputs: a set/get roundtrip in a capacity-20
memory, and the LRU law for three distinct keys at capacity 2. -/
theorem workingMemory_set_get_and_lru_witness :
    (((WorkingMemory.mk 20 [("x", (1 : Nat))]).set "k" 7).get "k" 0).1 = 7 ∧
    (((WorkingMemory.mk 2 ([] : List (String × Nat))).setAll
          [("a", 1), ("b", 2), ("c", 3)]).entries.map Prod.fst
        = takeLast (dedupLast ([("a", (1 : Nat)), ("b", 2), ("c", 3)].map
            Prod.fst)) 2 ∧
      ((((WorkingMemory.mk 2 ([] : List (String × Nat))).setAll
          [("a", 1), ("b", 2), ("c", 3)]).entries.map Prod.fst)).length = 2) :=
  ⟨workingMemory_set_get_and_lru.1 Nat _ "k" 7 0 (by decide),
   workingMemory_set_get_and_lru.2 Nat 2 _ (by decide)⟩

end Koda

namespace Koda

/-! ### C1 lemmas: the budget message never contains `"error"`

`AgentResult.success` is `final_response ≠ "" ∧ "error" ∉
final_response.lower()`.  The budget message is fixed text (containing no
`r` at all) around two `:.4f`-formatted numbers, whose characters are
digits, `.` and `-`; hence the lowered message has no `r`, so `"error"`
cannot occur in it and the flag computes to `true`. -/

theorem digitChar10_toLower_ne (n : Nat) :
    Char.toLower (digitChar10 n) ≠ 'r' := by
  unfold digitChar10
  split <;> decide

theorem natDigitsAux_toLower_ne :
    ∀ (fuel n : Nat), ∀ c ∈ natDigitsAux fuel n, Char.toLower c ≠ 'r' := by
  intro fuel
  induction fuel with
  | zero => intro n c hc; simp [natDigitsAux] at hc
  | succ fuel ih =>
    intro n c hc
    unfold natDigitsAux at hc
    by_cases hn : n < 10
    · rw [if_pos hn] at hc
      simp at hc
      subst hc
      exact digitChar10_toLower_ne n
    · rw [if_neg hn] at hc
      rcases List.mem_append.mp hc with h | h
      · exact ih (n / 10) c h
      · simp at h
        subst h
        exact digitChar10_toLower_ne n

theorem natRepr_toLower_ne (n : Nat) :
    ∀ c ∈ (natRepr n).data, Char.toLower c ≠ 'r' := by
  intro c hc
  exact natDigitsAux_toLower_ne (n + 1) n c hc

theorem pad4_toLower_ne (n : Nat) :
    ∀ c ∈ (pad4 n).data, Char.toLower c ≠ 'r' := by
  intro c hc
  rcases List.mem_append.mp hc with h | h
  · have := List.eq_of_mem_replicate h
    subst this
    decide
  · exact natRepr_toLower_ne n c h

theorem fmt4abs_toLower_ne (q : ℚ) :
    ∀ c ∈ (fmt4abs q).data, Char.toLower c ≠ 'r' := by
  intro c hc
  unfold fmt4abs at hc
  simp only [String.data_append] at hc
  rcases List.mem_append.mp hc with h | h
  · rcases List.mem_append.mp h with h' | h'
    · exact natRepr_toLower_ne _ c h'
    · simp at h'
      subst h'
      decide
  · exact pad4_toLower_ne _ c h

theorem fmt4_toLower_ne (q : ℚ) :
    ∀ c ∈ (fmt4 q).data, Char.toLower c ≠ 'r' := by
  intro c hc
  unfold fmt4 at hc
  split at hc
  · rw [String.data_append] at hc
    rcases List.mem_append.mp hc with h | h
    · simp at h
      subst h
      decide
    · exact fmt4abs_toLower_ne _ c h
  · exact fmt4abs_toLower_ne _ c hc

theorem budgetMessage_no_r (s b : ℚ) :
    ∀ c ∈ (budgetMessage s b).data, Char.toLower c ≠ 'r' := by
  intro c hc
  unfold budgetMessage at hc
  simp only [String.data_append] at hc
  rcases List.mem_append.mp hc with h | h
  · rcases List.mem_append.mp h with h | h
    · rcases List.mem_append.mp h with h | h
      · rcases List.mem_append.mp h with h | h
        · -- fixed text "Task stopped: budget exceeded ($"
          fin_cases h <;> decide
        · exact fmt4_toLower_ne s c h
      · -- fixed text " of $"
        fin_cases h <;> decide
    · exact fmt4_toLower_ne b c h
  · -- fixed text ")"
    fin_cases h
    decide

/-- If `isInfixB needle hay = true` then every element of `needle` occurs in
`hay`. -/
theorem isInfixB_subset {α : Type} [BEq α] [LawfulBEq α] :
    ∀ (hay needle : List α), isInfixB needle hay = true →
      ∀ c ∈ needle, c ∈ hay := by
  intro hay
  induction hay with
  | nil =>
    intro needle h c hc
    unfold isInfixB at h
    rw [List.isEmpty_iff] at h
    subst h
    simp at hc
  | cons x t ih =>
    intro needle h c hc
    unfold isInfixB at h
    rcases (Bool.or_eq_true _ _).mp h with h' | h'
    · have hpre := List.isPrefixOf_iff_prefix.mp h'
      exact hpre.sublist.subset hc
    · exact List.mem_cons_of_mem x (ih needle h' c hc)

theorem budgetMessage_error_free (s b : ℚ) :
    strContains (strToLower (budgetMessage s b)) "error" = false := by
  rcases Bool.eq_false_or_eq_true
      (strContains (strToLower (budgetMessage s b)) "error") with h | h
  · exfalso
    unfold strContains at h
    have hr : ('r' : Char) ∈ (strToLower (budgetMessage s b)).data :=
      isInfixB_subset _ _ h 'r' (by decide)
    have hmapped : (strToLower (budgetMessage s b)).data
        = (budgetMessage s b).data.map Char.toLower := rfl
    rw [hmapped] at hr
    obtain ⟨c, hc, hlow⟩ := List.mem_map.mp hr
    exact budgetMessage_no_r s b c hc hlow
  · exact h

theorem budgetMessage_ne_empty (s b : ℚ) : budgetMessage s b ≠ "" := by
  intro h
  have hd := congrArg String.data h
  unfold budgetMessage at hd
  simp only [String.data_append] at hd
  simp at hd

theorem budgetMessage_starts (s b : ℚ) :
    strStarts (budgetMessage s b) "Task stopped: budget exceeded" = true := by
  unfold strStarts budgetMessage
  rw [List.isPrefixOf_iff_prefix]
  simp only [String.data_append, List.append_assoc]
  have h1 : ("Task stopped: budget exceeded" : String).data
      <+: ("Task stopped: budget exceeded ($" : String).data := by decide
  exact h1.trans (List.prefix_append _ _)

end Koda

namespace Koda

/-- If the first `k` LLM calls answer with tool calls (so each iteration
continues) and the `(k+1)`-st raises the budget-exceeded signal, the
iteration loop breaks at index `i + k` with the budget message. -/
theorem loopGo_budget (llm : LLMStep) (registry : ToolRegistry) :
    ∀ (k r i : Nat) (st : LoopState), k < r →
      (∀ j, j < k → ∀ conv c, ∃ resp c',
        llm (i + j) conv c = (.ok resp, c') ∧ resp.has_tool_calls = true) →
      (∀ conv c, ∃ s b c',
        llm (i + k) conv c = (.error (.budgetExceeded s b), c')) →
      ∃ st' s b, loopGo llm registry i r st
        = (st', some (budgetMessage s b), some (i + k)) := by
  intro k
  induction k with
  | zero =>
    intro r i st hkr hbefore hat
    obtain ⟨r', rfl⟩ : ∃ r', r = r' + 1 := ⟨r - 1, by omega⟩
    obtain ⟨s, b, c', hllm⟩ := hat st.conversation st.cost
    rw [Nat.add_zero] at hllm
    refine ⟨{ st with cost := c' }, s, b, ?_⟩
    rw [Nat.add_zero]
    unfold loopGo iterBody
    rw [hllm]
    rfl
  | succ k ih =>
    intro r i st hkr hbefore hat
    obtain ⟨r', rfl⟩ : ∃ r', r = r' + 1 := ⟨r - 1, by omega⟩
    obtain ⟨resp, c', hllm, htc⟩ := hbefore 0 (by omega) st.conversation st.cost
    rw [Nat.add_zero] at hllm
    obtain ⟨stm, sres, hIB⟩ : ∃ stm sres, iterBody llm registry i st = (stm, sres) :=
      ⟨_, _, rfl⟩
    have hbody2 : (iterBody llm registry i st).2 = none := by
      unfold iterBody
      rw [hllm]
      dsimp only
      rw [htc]
      rfl
    rw [hIB] at hbody2
    subst hbody2
    obtain ⟨st'', s, b, hgo⟩ := ih r' (i + 1) stm (by omega)
      (fun j hj conv c => by
        have h := hbefore (j + 1) (by omega) conv c
        rwa [show i + (j + 1) = i + 1 + j by omega] at h)
      (fun conv c => by
        have h := hat conv c
        rwa [show i + (k + 1) = i + 1 + k by omega] at h)
    refine ⟨st'', s, b, ?_⟩
    unfold loopGo
    rw [hIB]
    dsimp only
    rw [hgo]
    have harith : i + 1 + k = i + (k + 1) := by omega
    dsimp only [Option.getD_some]
    rw [harith]

end Koda

namespace Koda

/-- **C1 (amended)**: whenever the LLM call raises the budget-exceeded
signal during a run (after any number of tool-calling iterations),
`AgentLoop.run` catches it and returns an `AgentResult` whose response
starts with `"Task stopped: budget exceeded"` — but whose `success` field
is **true**, not false: the flag is computed as "response non-empty and no
`error` substring (case-insensitive)", and the budget message contains no
`error` substring. -/
theorem agentLoop_run_budget (llm : LLMStep) (registry : ToolRegistry)
    (max_iterations k : Nat) (memory : WorkingMemory (Option String))
    (cost : CostTracker) (task context : String) (duration : ℚ)
    (hk : k < max_iterations)
    (hbefore : ∀ j, j < k → ∀ conv c, ∃ resp c',
      llm j conv c = (.ok resp, c') ∧ resp.has_tool_calls = true)
    (hat : ∀ conv c, ∃ s b c',
      llm k conv c = (.error (.budgetExceeded s b), c')) :
    ∃ r, AgentLoop.run llm registry max_iterations memory cost task context
        duration = .ok r ∧
      strStarts r.response "Task stopped: budget exceeded" = true ∧
      r.success = true ∧
      r.iterations = k + 1 := by
  obtain ⟨st', s, b, hgo⟩ := loopGo_budget llm registry k max_iterations 0
    (AgentLoop.initialState memory cost task context) hk
    (fun j hj conv c => by simpa using hbefore j hj conv c)
    (fun conv c => by simpa using hat conv c)
  rw [Nat.zero_add] at hgo
  unfold AgentLoop.run
  rw [hgo]
  dsimp only
  refine ⟨_, rfl, budgetMessage_starts s b, ?_, ?_⟩
  · show (decide (budgetMessage s b ≠ "")
        && !strContains (strToLower (budgetMessage s b)) "error") = true
    rw [budgetMessage_error_free]
    simp [budgetMessage_ne_empty s b]
  · show min (k + 1) max_iterations = k + 1
    omega

/-- The mocked gateway of the budget-exhaustion scenario: every `chat` call
raises `BudgetExceededError(spent=0.15, budget=0.10)`. -/
def budgetLLMStep : LLMStep :=
  fun _ _ c => (.error (.budgetExceeded (3/20) (1/10)), c)

/-- **C1** counterexample: a concrete budget-exhausted run returns an
`AgentResult` whose response starts with `"Task stopped: budget exceeded"`
— as the claim states — but whose `success` field is `true`, not `false`:
`success` is `final_response ≠ "" and "error" not in final_response.lower()`
(`loop.py` line 207) and the budget message contains no `"error"`. -/
theorem agentLoop_budget_counterexample :
    ∃ r, AgentLoop.run budgetLLMStep ⟨[]⟩ 25 (WorkingMemory.mk 20 [])
        ⟨⟨1/2, []⟩, [], 0⟩ "what is 2+2?" "" 0 = .ok r ∧
      strStarts r.response "Task stopped: budget exceeded" = true ∧
      r.success = true := by
  obtain ⟨st', s, b, hgo⟩ := loopGo_budget budgetLLMStep ⟨[]⟩ 0 25 0
    (AgentLoop.initialState (WorkingMemory.mk 20 []) ⟨⟨1/2, []⟩, [], 0⟩
      "what is 2+2?" "") (by omega)
    (fun j hj conv c => absurd hj (by omega))
    (fun conv c => ⟨3/20, 1/10, c, rfl⟩)
  unfold AgentLoop.run
  rw [hgo]
  dsimp only
  refine ⟨_, rfl, budgetMessage_starts s b, ?_⟩
  show (decide (budgetMessage s b ≠ "")
      && !strContains (strToLower (budgetMessage s b)) "error") = true
  rw [budgetMessage_error_free]
  simp [budgetMessage_ne_empty s b]

/-- Witness for C1 (amended): the concrete budget-exhaustion run, with the
budget raised on the very first call. -/
theorem agentLoop_run_budget_witness :
    ∃ r, AgentLoop.run budgetLLMStep ⟨[]⟩ 25 (WorkingMemory.mk 20 [])
        ⟨⟨1/2, []⟩, [], 0⟩ "what is 2+2?" "" 0 = .ok r ∧
      strStarts r.response "Task stopped: budget exceeded" = true ∧
      r.success = true ∧
      r.iterations = 1 :=
  agentLoop_run_budget budgetLLMStep ⟨[]⟩ 25 0 (WorkingMemory.mk 20 [])
    ⟨⟨1/2, []⟩, [], 0⟩ "what is 2+2?" "" 0 (by omega)
    (fun j hj conv c => absurd hj (by omega))
    (fun conv c => ⟨3/20, 1/10, c, rfl⟩)

end Koda
